import Mathlib

/-!
Verification of the labwatch aggregation-and-fanout core (labwatch.go).

The development embeds, as executable Lean definitions:
  * the `LabStatus` snapshot type and its zero value;
  * the subscriber registries (Go maps `statusClients` / `eventClients`,
    modelled as association lists with unique keys) together with the
    registration functions `addStatusClient`, `removeStatusClient`,
    `addEventClient`, `removeEventClient`;
  * the merge loop of `startWatchers` (lines 191-231) as a step function
    `loopStep` over an input alphabet of channel receptions, channel
    closures and the select-default branch, folded by `runLoop`;
  * the initial portions of the `/status` and `/events` websocket handlers
    as action traces;
  * a static table of every registry access site with its lock discipline.
-/

namespace Labwatch

/-- Modelled from the spec: `talos.NodeStatus` (package
`watchers/talos`, not in the analysed sources) is an opaque per-node
health descriptor that the core stores and forwards verbatim. -/
structure NodeStatus where
  descriptor : String
deriving DecidableEq, Repr

/-- Modelled from the spec: `loki.LogStats` (package `watchers/loki`,
not in the analysed sources) is an opaque aggregate counters record;
the core replaces it wholesale and forwards it verbatim.  The spec's
concrete scenario shows a `Lines` counter. -/
structure LogStats where
  Lines : Nat
deriving DecidableEq, Repr

/-- Modelled from the spec: `loki.LogEvent` (package `watchers/loki`,
not in the analysed sources) is an immutable record of one structured
log line, forwarded verbatim. -/
structure LogEvent where
  Host : String
  Msg : String
deriving DecidableEq, Repr

/-- Go map `map[string]talos.NodeStatus`, as an association list. -/
abbrev NodeMap := List (String × NodeStatus)

/-- `LabStatus` (labwatch.go lines 34-37): the aggregated snapshot. -/
structure LabStatus where
  Talos : NodeMap
  Logs : LogStats
deriving DecidableEq, Repr

/-- Go zero value of `LogStats`. -/
def LogStats.zero : LogStats := { Lines := 0 }

/-- Go zero value of `LabStatus` (`LabStatus{}`): nil map, zero stats. -/
def LabStatus.zero : LabStatus := { Talos := [], Logs := LogStats.zero }

/-- A subscriber registry: a Go map from a generated id to a delivery
channel, modelled as an association list whose keys are unique.
Channels are opaque handles of type `α`. -/
abbrev Registry (α : Type) := List (String × α)

/-- Go map read `m[id]`: the channel registered under `id`, if any. -/
def registryLookup {α : Type} (m : Registry α) (id : String) : Option α :=
  (m.find? (fun p => p.1 == id)).map Prod.snd

/-- Go map assignment `m[id] = ch`: any previous binding of `id` is
replaced, every other binding is kept. -/
def registryInsert {α : Type} (m : Registry α) (id : String) (ch : α) : Registry α :=
  m.filter (fun p => !(p.1 == id)) ++ [(id, ch)]

/-- Go builtin `delete(m, id)`: removes the binding of `id` if present. -/
def registryRemove {α : Type} (m : Registry α) (id : String) : Registry α :=
  m.filter (fun p => !(p.1 == id))

/-- `len(m)`: the subscriber count of a registry. -/
def registryCount {α : Type} (m : Registry α) : Nat := m.length

/-- Well-formedness of a Go map image: keys are pairwise distinct. -/
def keysUnique {α : Type} (m : Registry α) : Prop := (m.map Prod.fst).Nodup

instance {α : Type} (m : Registry α) : Decidable (keysUnique m) :=
  inferInstanceAs (Decidable ((m.map Prod.fst).Nodup))

/-- The process-wide mutable state shared by the handlers and the merge
loop: `currentStatus`, `statusClients`, `eventClients`
(labwatch.go lines 39-41).  Channel handles are numbered. -/
structure GlobalState where
  currentStatus : LabStatus
  statusClients : Registry Nat
  eventClients : Registry Nat
deriving Repr

/-- `addStatusClient` (lines 236-240): inserts into `statusClients`
under the lock. -/
def addStatusClient (g : GlobalState) (id : String) (ch : Nat) : GlobalState :=
  { g with statusClients := registryInsert g.statusClients id ch }

/-- `removeStatusClient` (lines 242-246): deletes from `statusClients`
under the lock. -/
def removeStatusClient (g : GlobalState) (id : String) : GlobalState :=
  { g with statusClients := registryRemove g.statusClients id }

/-- `addEventClient` (lines 248-252): inserts into `eventClients`
under the lock. -/
def addEventClient (g : GlobalState) (id : String) (ch : Nat) : GlobalState :=
  { g with eventClients := registryInsert g.eventClients id ch }

/-- `removeEventClient` (lines 254-258): deletes from `eventClients`
under the lock. -/
def removeEventClient (g : GlobalState) (id : String) : GlobalState :=
  { g with eventClients := registryRemove g.eventClients id }

/-- One outcome of the `select` at the head of the watch-loop iteration
(labwatch.go lines 194-221): a reception on `tInfo`, `stats` or
`events` (`ok = true`), a closure of one of them (`ok = false`), or the
`default` branch taken when no channel is ready. -/
inductive LoopInput where
  | tInfo (t : NodeMap)
  | tClosed
  | stats (s : LogStats)
  | statsClosed
  | event (e : LogEvent)
  | eventsClosed
  | noneReady
deriving DecidableEq, Repr

/-- An observable effect of one watch-loop iteration: a log line, a send
on a subscriber channel, or the `time.Sleep` of the default branch. -/
inductive LoopOutput where
  | logError (msg : String)
  | logDebug (msg : String)
  | sendStatus (chan : Nat) (st : LabStatus)
  | sendEvent (chan : Nat) (e : LogEvent)
  | sleep (ms : Nat)
deriving DecidableEq, Repr

/-- State private to `startWatchers` and its goroutine: the local
`status` variable (line 173) and the published global `currentStatus`
(line 39). -/
structure LoopState where
  status : LabStatus
  currentStatus : LabStatus
deriving DecidableEq, Repr

/-- State at loop start: `status := LabStatus{}` in `startWatchers` and
the package-level `currentStatus = LabStatus{}`. -/
def initLoopState : LoopState :=
  { status := LabStatus.zero, currentStatus := LabStatus.zero }

/-- One iteration of the watch loop (labwatch.go lines 192-230), with
the registries it reads passed as parameters.  A health or stats
reception replaces the corresponding field, publishes
`currentStatus = status` and sends `status` to every status client; an
event reception sends the event to every event client; a closure is
logged and changes nothing; the default branch sleeps 100 ms. -/
def loopStep (statusClients eventClients : Registry Nat) (st : LoopState) :
    LoopInput → LoopState × List LoopOutput
  | .tInfo t =>
      let status := { st.status with Talos := t }
      ({ status := status, currentStatus := status },
        LoopOutput.logDebug "broadcasting status" ::
          statusClients.map (fun c => LoopOutput.sendStatus c.2 status))
  | .tClosed => (st, [LoopOutput.logError "error encountered reading talos states"])
  | .stats s =>
      let status := { st.status with Logs := s }
      ({ status := status, currentStatus := status },
        LoopOutput.logDebug "broadcasting status" ::
          statusClients.map (fun c => LoopOutput.sendStatus c.2 status))
  | .statsClosed => (st, [LoopOutput.logError "error encountered reading log stats"])
  | .event e =>
      (st, LoopOutput.logDebug "broadcasting event" ::
        eventClients.map (fun c => LoopOutput.sendEvent c.2 e))
  | .eventsClosed => (st, [LoopOutput.logError "error encountered reading "])
  | .noneReady => (st, [LoopOutput.sleep 100])

/-- The watch loop folded over a finite sequence of select outcomes,
collecting the final state and all effects in order. -/
def runLoop (sc ec : Registry Nat) (st : LoopState) :
    List LoopInput → LoopState × List LoopOutput
  | [] => (st, [])
  | i :: rest =>
      let stepped := loopStep sc ec st i
      let next := runLoop sc ec stepped.1 rest
      (next.1, stepped.2 ++ next.2)

/-- The latest node-health value received in a sequence of inputs,
defaulting to `d` when none was received. -/
def lastHealth (d : NodeMap) : List LoopInput → NodeMap
  | [] => d
  | .tInfo t :: rest => lastHealth t rest
  | .tClosed :: rest => lastHealth d rest
  | .stats _ :: rest => lastHealth d rest
  | .statsClosed :: rest => lastHealth d rest
  | .event _ :: rest => lastHealth d rest
  | .eventsClosed :: rest => lastHealth d rest
  | .noneReady :: rest => lastHealth d rest

/-- The latest log-stats value received in a sequence of inputs,
defaulting to `d` when none was received. -/
def lastStats (d : LogStats) : List LoopInput → LogStats
  | [] => d
  | .stats s :: rest => lastStats s rest
  | .tInfo _ :: rest => lastStats d rest
  | .tClosed :: rest => lastStats d rest
  | .statsClosed :: rest => lastStats d rest
  | .event _ :: rest => lastStats d rest
  | .eventsClosed :: rest => lastStats d rest
  | .noneReady :: rest => lastStats d rest

/-- Whether a select outcome is a producer-channel closure. -/
def isClosure : LoopInput → Bool
  | .tClosed => true
  | .statsClosed => true
  | .eventsClosed => true
  | _ => false

/-- The log message the loop emits for each closure (verbatim from the
source, including the trailing space of the events message). -/
def closureMsg : LoopInput → String
  | .tClosed => "error encountered reading talos states"
  | .statsClosed => "error encountered reading log stats"
  | _ => "error encountered reading "

/-- Whether an effect is a send on a status-subscriber channel. -/
def isSendStatus : LoopOutput → Bool
  | .sendStatus _ _ => true
  | _ => false

/-- Whether an effect is the poll-fallback sleep. -/
def isSleepOutput : LoopOutput → Bool
  | .sleep _ => true
  | _ => false

/-- One action of a `/status` websocket connection's goroutine. -/
inductive StatusConnAction where
  | register (id : String)
  | writeStatus (s : LabStatus)
  | unregister (id : String)
deriving DecidableEq, Repr

/-- One action of an `/events` websocket connection's goroutine. -/
inductive EventConnAction where
  | register (id : String)
  | writeEvent (e : LogEvent)
  | unregister (id : String)
deriving DecidableEq, Repr

/-- The action trace of the `/status` handler after a successful upgrade
(labwatch.go lines 111-134): `addStatusClient`, an immediate write of
`currentStatus`, one write per value received on `thisChan`, and the
deferred `removeStatusClient` on exit.  `current` is the value of
`currentStatus` at registration time; `pushed` the values later
received on the subscriber channel. -/
def statusHandlerActions (id : String) (current : LabStatus)
    (pushed : List LabStatus) : List StatusConnAction :=
  StatusConnAction.register id :: StatusConnAction.writeStatus current ::
    (pushed.map StatusConnAction.writeStatus ++ [StatusConnAction.unregister id])

/-- The action trace of the `/events` handler after a successful upgrade
(labwatch.go lines 144-160): `addEventClient`, one write per event
received on `thisChan` — no initial write — and the deferred
`removeEventClient` on exit. -/
def eventHandlerActions (id : String) (pushed : List LogEvent) :
    List EventConnAction :=
  EventConnAction.register id ::
    (pushed.map EventConnAction.writeEvent ++ [EventConnAction.unregister id])

/-- The first status value a `/status` connection writes, if any. -/
def firstStatusWrite : List StatusConnAction → Option LabStatus
  | [] => none
  | StatusConnAction.writeStatus s :: _ => some s
  | StatusConnAction.register _ :: rest => firstStatusWrite rest
  | StatusConnAction.unregister _ :: rest => firstStatusWrite rest

/-- The first event an `/events` connection writes, if any. -/
def firstEventWrite : List EventConnAction → Option LogEvent
  | [] => none
  | EventConnAction.writeEvent e :: _ => some e
  | EventConnAction.register _ :: rest => firstEventWrite rest
  | EventConnAction.unregister _ :: rest => firstEventWrite rest

/-- Which of the two registries an access site touches. -/
inductive RegistryKind where
  | statusRegistry
  | eventRegistry
deriving DecidableEq, Repr

/-- The lock discipline of one source location that touches a subscriber
registry: whether it mutates the map, whether it runs between
`lock.Lock()` and `lock.Unlock()`, and whether it iterates a copy of
the map taken under the lock rather than the shared map itself. -/
structure RegistryAccess where
  site : String
  kind : RegistryKind
  mutates : Bool
  underLock : Bool
  iteratesCopy : Bool
deriving DecidableEq, Repr

/-- Every source location of labwatch.go that reads or writes
`statusClients` or `eventClients`, with its lock discipline as written:
the four client functions (lines 236-258) mutate between `lock.Lock()`
and `lock.Unlock()`; the watch-loop broadcasts (lines 211-214 for
events, 225-228 for status) range over the shared maps directly with no
lock acquisition and no copy. -/
def programRegistryAccesses : List RegistryAccess :=
  [ { site := "addStatusClient", kind := RegistryKind.statusRegistry,
      mutates := true, underLock := true, iteratesCopy := false },
    { site := "removeStatusClient", kind := RegistryKind.statusRegistry,
      mutates := true, underLock := true, iteratesCopy := false },
    { site := "addEventClient", kind := RegistryKind.eventRegistry,
      mutates := true, underLock := true, iteratesCopy := false },
    { site := "removeEventClient", kind := RegistryKind.eventRegistry,
      mutates := true, underLock := true, iteratesCopy := false },
    { site := "watchloop event broadcast", kind := RegistryKind.eventRegistry,
      mutates := false, underLock := false, iteratesCopy := false },
    { site := "watchloop status broadcast", kind := RegistryKind.statusRegistry,
      mutates := false, underLock := false, iteratesCopy := false } ]

/-- The serialization discipline the claim requires of one access site:
mutations hold the lock; broadcast iterations hold the lock or iterate
a copy taken under the lock. -/
def accessSerialized (a : RegistryAccess) : Bool :=
  if a.mutates then a.underLock else a.underLock || a.iteratesCopy

/-! ## Registry lemmas -/

lemma remove_of_lookup_none {α : Type} {m : Registry α} {id : String}
    (h : registryLookup m id = none) : registryRemove m id = m := by
  have hm : m.find? (fun p => p.1 == id) = none := by
    simpa [registryLookup, Option.map_eq_none'] using h
  have hall := List.find?_eq_none.mp hm
  unfold registryRemove
  rw [List.filter_eq_self]
  intro a ha
  simpa using hall a ha

lemma remove_insert {α : Type} (m : Registry α) (id : String) (ch : α) :
    registryRemove (registryInsert m id ch) id = registryRemove m id := by
  simp [registryRemove, registryInsert, List.filter_append, List.filter_filter]

lemma remove_idem {α : Type} (m : Registry α) (id : String) :
    registryRemove (registryRemove m id) id = registryRemove m id := by
  simp [registryRemove, List.filter_filter]

lemma count_remove_of_some {α : Type} (id : String) :
    ∀ (m : Registry α), keysUnique m → (∃ v, registryLookup m id = some v) →
      registryCount (registryRemove m id) + 1 = registryCount m := by
  intro m
  induction m with
  | nil =>
      rintro _ ⟨v, hv⟩
      simp [registryLookup] at hv
  | cons p rest ih =>
      rintro hu ⟨v, hv⟩
      obtain ⟨k, w⟩ := p
      have hu' : (k ∉ rest.map Prod.fst) ∧ keysUnique rest := by
        simpa [keysUnique, List.nodup_cons] using hu
      by_cases hk : (k == id) = true
      · have hkid : k = id := by simpa using hk
        have hnotin : id ∉ rest.map Prod.fst := hkid ▸ hu'.1
        have hrest : rest.filter (fun q => !(q.1 == id)) = rest := by
          rw [List.filter_eq_self]
          intro a ha
          have : a.1 ≠ id := fun he => hnotin (he ▸ List.mem_map_of_mem Prod.fst ha)
          simpa using this
        simp [registryRemove, registryCount, List.filter_cons, hk, hrest]
      · have hv' : registryLookup rest id = some v := by
          simpa [registryLookup, List.find?_cons, hk] using hv
        have := ih hu'.2 ⟨v, hv'⟩
        simp only [registryRemove, registryCount] at this ⊢
        simp [List.filter_cons, hk]
        omega

lemma lookup_insert {α : Type} (m : Registry α) (id : String) (ch : α) :
    registryLookup (registryInsert m id ch) id = some ch := by
  have hnone : (m.filter (fun p => !(p.1 == id))).find? (fun p => p.1 == id) = none := by
    rw [List.find?_eq_none]
    intro x hx
    have := (List.mem_filter.mp hx).2
    simpa using this
  simp [registryLookup, registryInsert, List.find?_append, hnone]

lemma insert_filter_eq {α : Type} (m : Registry α) (id : String) (ch : α) :
    (registryInsert m id ch).filter (fun p => p.1 == id) = [(id, ch)] := by
  simp [registryInsert, List.filter_append, List.filter_filter]

/-! ## Merge-loop lemmas -/

lemma runLoop_status (sc ec : Registry Nat) :
    ∀ (inputs : List LoopInput) (st : LoopState), st.currentStatus = st.status →
      (runLoop sc ec st inputs).1.status =
        { Talos := lastHealth st.status.Talos inputs,
          Logs := lastStats st.status.Logs inputs } ∧
      (runLoop sc ec st inputs).1.currentStatus = (runLoop sc ec st inputs).1.status := by
  intro inputs
  induction inputs with
  | nil =>
      intro st h
      exact ⟨rfl, by simpa [runLoop] using h⟩
  | cons i rest ih =>
      intro st h
      cases i with
      | tInfo t =>
          simpa [runLoop, loopStep, lastHealth, lastStats] using
            ih { status := { st.status with Talos := t },
                 currentStatus := { st.status with Talos := t } } rfl
      | stats s =>
          simpa [runLoop, loopStep, lastHealth, lastStats] using
            ih { status := { st.status with Logs := s },
                 currentStatus := { st.status with Logs := s } } rfl
      | tClosed => simpa [runLoop, loopStep, lastHealth, lastStats] using ih st h
      | statsClosed => simpa [runLoop, loopStep, lastHealth, lastStats] using ih st h
      | event e => simpa [runLoop, loopStep, lastHealth, lastStats] using ih st h
      | eventsClosed => simpa [runLoop, loopStep, lastHealth, lastStats] using ih st h
      | noneReady => simpa [runLoop, loopStep, lastHealth, lastStats] using ih st h

/-! ## Claims -/

/-- C1: after the merge loop processes any finite sequence of select
outcomes from the initial state, the published `currentStatus` is
exactly the combination of the most recent node-health value and the
most recent log-stats value received so far, each field defaulting to
its zero value until its first update; in particular an update to one
field never loses or alters the other field. -/
theorem merge_loop_publishes_latest (sc ec : Registry Nat) (inputs : List LoopInput) :
    (runLoop sc ec initLoopState inputs).1.currentStatus =
      { Talos := lastHealth ([] : NodeMap) inputs,
        Logs := lastStats LogStats.zero inputs } := by
  obtain ⟨h1, h2⟩ := runLoop_status sc ec inputs initLoopState rfl
  rw [h2, h1]
  rfl

/-- C2: on a closure signal of any producer channel, the merge loop
emits exactly the corresponding error-log line, leaves its state (both
the pending and the published snapshot) unchanged, and processes the
remaining inputs exactly as it would have without the closure — the
loop does not terminate. -/
theorem closure_logged_loop_continues (sc ec : Registry Nat) (st : LoopState)
    (c : LoopInput) (rest : List LoopInput) (h : isClosure c = true) :
    (runLoop sc ec st (c :: rest)).1 = (runLoop sc ec st rest).1 ∧
    (runLoop sc ec st (c :: rest)).2 =
      LoopOutput.logError (closureMsg c) :: (runLoop sc ec st rest).2 := by
  cases c <;> simp [isClosure] at h <;> simp [runLoop, loopStep, closureMsg]

/-- C2 witness: the talos-channel closure, followed by a log-stats
update, concretely instantiates `closure_logged_loop_continues`. -/
theorem closure_logged_loop_continues_witness :
    isClosure LoopInput.tClosed = true ∧
    ((runLoop [] [] initLoopState (LoopInput.tClosed :: [LoopInput.stats ⟨10⟩])).1
        = (runLoop [] [] initLoopState [LoopInput.stats ⟨10⟩]).1 ∧
      (runLoop [] [] initLoopState (LoopInput.tClosed :: [LoopInput.stats ⟨10⟩])).2
        = LoopOutput.logError (closureMsg LoopInput.tClosed) ::
            (runLoop [] [] initLoopState [LoopInput.stats ⟨10⟩]).2) :=
  ⟨rfl, closure_logged_loop_continues [] [] initLoopState LoopInput.tClosed
    [LoopInput.stats ⟨10⟩] rfl⟩

/-- C3 counterexample: when no channel is ready the loop's select takes
the `default` branch and the iteration's effect is a 100 ms sleep — a
fixed-interval poll step, refuting the claim that the wait step always
blocks and never sleeps. -/
theorem wait_step_sleeps_cex :
    (loopStep [] [] initLoopState LoopInput.noneReady).2 = [LoopOutput.sleep 100] ∧
    ((loopStep [] [] initLoopState LoopInput.noneReady).2.any isSleepOutput) = true :=
  ⟨rfl, rfl⟩

/-- C3 amended: in every iteration in which no input channel is ready,
the merge loop takes the select's `default` branch: it leaves the state
unchanged, sleeps 100 milliseconds and retries — a fixed-interval
polling fallback rather than a blocking wait. -/
theorem wait_step_polls (sc ec : Registry Nat) (st : LoopState) :
    loopStep sc ec st LoopInput.noneReady = (st, [LoopOutput.sleep 100]) := rfl

/-- C4: among the registry access sites of the program, the two
watch-loop broadcast iterations range over the shared registry maps
neither holding the lock nor iterating a copy taken under the lock, so
not every registry access is serialized by the lock — broadcast can
race with a concurrent register or unregister. -/
theorem broadcast_not_lock_serialized :
    programRegistryAccesses.all accessSerialized = false ∧
    (programRegistryAccesses.filter (fun a => !(accessSerialized a))).map
        RegistryAccess.site
      = ["watchloop event broadcast", "watchloop status broadcast"] :=
  ⟨rfl, rfl⟩

/-- C5: a `/status` connection's first written message is the value of
`currentStatus` at registration time, even when nothing is ever pushed
afterwards, while an `/events` connection with no pushed events writes
no message at all. -/
theorem status_subscriber_gets_initial_snapshot (id jd : String)
    (current : LabStatus) (pushed : List LabStatus) :
    firstStatusWrite (statusHandlerActions id current pushed) = some current ∧
    firstEventWrite (eventHandlerActions jd []) = none :=
  ⟨rfl, rfl⟩

/-- C6: processing a log event leaves the loop state — the pending
snapshot and the published `currentStatus` — unchanged, emits no send
on any status-subscriber channel, and sends the event to every channel
of the event registry. -/
theorem event_processing_frame (sc ec : Registry Nat) (st : LoopState) (e : LogEvent) :
    loopStep sc ec st (LoopInput.event e) =
      (st, LoopOutput.logDebug "broadcasting event" ::
        ec.map (fun c => LoopOutput.sendEvent c.2 e)) ∧
    ((loopStep sc ec st (LoopInput.event e)).2.all (fun o => !(isSendStatus o))) = true := by
  refine ⟨rfl, ?_⟩
  induction ec with
  | nil => rfl
  | cons c cs ih => simpa [loopStep, isSendStatus] using ih

/-- C7 counterexample: with channel `0` registered under id `"a"`,
registering `("a", 1)` and then unregistering `"a"` leaves the count at
`0`, not at its pre-registration value `1` — the overwrite lost the
original entry. -/
theorem register_unregister_count_cex :
    registryCount (registryRemove (registryInsert [("a", (0 : Nat))] "a" 1) "a") ≠
      registryCount [("a", (0 : Nat))] := by decide

/-- C7 amended: for every well-formed registry, `Register(id, ch)`
followed immediately by `Unregister(id)` returns the subscriber count
to its pre-registration value when `id` was not already registered;
when `id` was already registered, the registration overwrites the
existing entry and the unregistration then removes it, leaving the
count one below its pre-registration value. -/
theorem register_unregister_count (m : Registry Nat) (id : String) (ch : Nat)
    (hu : keysUnique m) :
    registryCount (registryRemove (registryInsert m id ch) id) =
      if registryLookup m id = none then registryCount m
      else registryCount m - 1 := by
  rw [remove_insert]
  by_cases hl : registryLookup m id = none
  · simp [hl, remove_of_lookup_none hl]
  · rw [if_neg hl]
    obtain ⟨v, hv⟩ := Option.ne_none_iff_exists'.mp hl
    have := count_remove_of_some id m hu ⟨v, hv⟩
    omega

/-- C7 witness: the registry `[("a", 5)]` with the fresh id `"b"`
concretely instantiates `register_unregister_count`. -/
theorem register_unregister_count_witness :
    keysUnique [("a", (5 : Nat))] ∧
    registryCount (registryRemove (registryInsert [("a", (5 : Nat))] "b" 7) "b") =
      if registryLookup [("a", (5 : Nat))] "b" = none then registryCount [("a", (5 : Nat))]
      else registryCount [("a", (5 : Nat))] - 1 :=
  ⟨by decide, register_unregister_count [("a", 5)] "b" 7 (by decide)⟩

/-- C8: registering an id that is already present silently overwrites:
afterwards the lookup of `id` yields the new channel, the registry
holds exactly one entry for `id` (the most recently registered one),
and the subscriber count is unchanged; no error or rejection exists —
the operation is total. -/
theorem register_existing_overwrites (m : Registry Nat) (id : String) (ch old : Nat)
    (hu : keysUnique m) (h : registryLookup m id = some old) :
    registryLookup (registryInsert m id ch) id = some ch ∧
    (registryInsert m id ch).filter (fun p => p.1 == id) = [(id, ch)] ∧
    registryCount (registryInsert m id ch) = registryCount m := by
  refine ⟨lookup_insert m id ch, insert_filter_eq m id ch, ?_⟩
  have hc := count_remove_of_some id m hu ⟨old, h⟩
  simp only [registryRemove, registryCount] at hc
  simp [registryInsert, registryCount]
  omega

/-- C8 witness: overwriting id `"a"` in the registry
`[("a", 5), ("b", 6)]` concretely instantiates
`register_existing_overwrites`. -/
theorem register_existing_overwrites_witness :
    (keysUnique [("a", (5 : Nat)), ("b", 6)] ∧
      registryLookup [("a", (5 : Nat)), ("b", 6)] "a" = some 5) ∧
    (registryLookup (registryInsert [("a", (5 : Nat)), ("b", 6)] "a" 9) "a" = some 9 ∧
      (registryInsert [("a", (5 : Nat)), ("b", 6)] "a" 9).filter
          (fun p => p.1 == "a") = [("a", 9)] ∧
      registryCount (registryInsert [("a", (5 : Nat)), ("b", 6)] "a" 9) =
        registryCount [("a", (5 : Nat)), ("b", 6)]) :=
  ⟨⟨by decide, by decide⟩,
    register_existing_overwrites [("a", 5), ("b", 6)] "a" 9 5 (by decide) (by decide)⟩

/-- C9: unregistering an id that is not present leaves the registry
unchanged (a no-op, not an error), and unregistering twice has the same
effect on the registry as unregistering once. -/
theorem unregister_absent_noop (m : Registry Nat) (id : String)
    (h : registryLookup m id = none) :
    registryRemove m id = m ∧
    registryRemove (registryRemove m id) id = registryRemove m id :=
  ⟨remove_of_lookup_none h, remove_idem m id⟩

/-- C9 witness: removing the absent id `"b"` from the registry
`[("a", 5)]` concretely instantiates `unregister_absent_noop`. -/
theorem unregister_absent_noop_witness :
    registryLookup [("a", (5 : Nat))] "b" = none ∧
    (registryRemove [("a", (5 : Nat))] "b" = [("a", (5 : Nat))] ∧
      registryRemove (registryRemove [("a", (5 : Nat))] "b") "b" =
        registryRemove [("a", (5 : Nat))] "b") :=
  ⟨by decide, unregister_absent_noop [("a", 5)] "b" (by decide)⟩

/-- C10: the status registry and the event registry are independent
state: each of `addStatusClient` and `removeStatusClient` leaves
`eventClients` unchanged, and each of `addEventClient` and
`removeEventClient` leaves `statusClients` unchanged. -/
theorem registries_independent (g : GlobalState) (id : String) (ch : Nat) :
    (addStatusClient g id ch).eventClients = g.eventClients ∧
    (removeStatusClient g id).eventClients = g.eventClients ∧
    (addEventClient g id ch).statusClients = g.statusClients ∧
    (removeEventClient g id).statusClients = g.statusClients :=
  ⟨rfl, rfl, rfl, rfl⟩

end Labwatch
